import Mathlib

/-!
Verification of the NBT binary codec (src/nbt/io.cpp, src/nbt/binary.cpp).

The two source files are two snapshots of the same reader/writer; their
read/write logic is line-for-line identical except for the in-memory
compound representation (io.cpp keeps an ordered, duplicate-tolerant
sequence of named tags, which the specification designates as canonical;
binary.cpp keeps a unique-key map).  The definitions below embed the
io.cpp snapshot; places where the snapshots differ are noted in comments.

Modelling conventions:
* A `QIODevice` stream is a pure list of byte values (`Bytes`, each < 256).
  End-of-stream reads and short reads raise `Err.eof` ("EOF"); device
  faults have no counterpart on a pure list.
* `QString` values are identified with their UTF-8 byte sequences
  (`value.toUtf8` on write and `QString::fromUtf8` on read compose to
  the identity on the byte sequences the codec moves).
* `float`/`double` payloads are carried as their 32/64-bit patterns:
  `read_float`/`write_float` only `memcpy` between the integer and the
  floating type, so the codec is the identity on bit patterns and the
  embedding stores the pattern itself (as the signed integer the
  `memcpy` partner holds).
* Machine integers are `Int` together with explicit two's-complement
  reduction (`castInt8` .. `castInt64`), applied exactly where the C++
  performs a conversion or where its arithmetic wraps.
-/

/-- A byte stream: a list of byte values (each < 256). -/
abbrev Bytes := List Nat

/-- Two's-complement reading of `n mod 2^8` (C++ `static_cast<int8_t>`). -/
def castInt8 (n : Int) : Int :=
  if n % 256 < 128 then n % 256 else n % 256 - 256

/-- Two's-complement reading of `n mod 2^16` (C++ `static_cast<int16_t>`). -/
def castInt16 (n : Int) : Int :=
  if n % 65536 < 32768 then n % 65536 else n % 65536 - 65536

/-- Two's-complement reading of `n mod 2^32` (C++ `static_cast<int32_t>`). -/
def castInt32 (n : Int) : Int :=
  if n % 4294967296 < 2147483648 then n % 4294967296 else n % 4294967296 - 4294967296

/-- Two's-complement reading of `n mod 2^64` (C++ `int64_t` arithmetic). -/
def castInt64 (n : Int) : Int :=
  if n % 18446744073709551616 < 9223372036854775808 then n % 18446744073709551616
  else n % 18446744073709551616 - 18446744073709551616

/-- Errors thrown by the codec.  Each constructor corresponds to one
`throw IOError(...)` site of src/nbt/io.cpp / src/nbt/binary.cpp:
`eof` = "EOF", `invalidTagId i` = "Invalid tag ID: i",
`maxDepth` = "Max depth reached", `stringTooLong` = "String too long",
`unknownTag` = "Unknown tag ID" (the after-switch throws). -/
inductive Err where
  | eof
  | invalidTagId (id : Int)
  | maxDepth
  | stringTooLong
  | unknownTag
deriving DecidableEq, Repr

/-- The `TagType` enum of src/nbt/tag.hpp (values 0..12). -/
inductive TagType where
  | END
  | BYTE
  | SHORT
  | INT
  | LONG
  | FLOAT
  | DOUBLE
  | BYTE_ARRAY
  | STRING
  | LIST
  | COMPOUND
  | INT_ARRAY
  | LONG_ARRAY
deriving DecidableEq, Repr

/-- Numeric value of a `TagType` (the enum value / wire kind byte). -/
def TagType.toId : TagType → Nat
  | .END => 0
  | .BYTE => 1
  | .SHORT => 2
  | .INT => 3
  | .LONG => 4
  | .FLOAT => 5
  | .DOUBLE => 6
  | .BYTE_ARRAY => 7
  | .STRING => 8
  | .LIST => 9
  | .COMPOUND => 10
  | .INT_ARRAY => 11
  | .LONG_ARRAY => 12

/-- The `static_cast<TagType>(id)` of `read_tag_type`; only applied under
the guard `0 ≤ id < TAG_ID_COUNT`, the catch-all arm is unreachable. -/
def typeOfId : Nat → TagType
  | 0 => .END
  | 1 => .BYTE
  | 2 => .SHORT
  | 3 => .INT
  | 4 => .LONG
  | 5 => .FLOAT
  | 6 => .DOUBLE
  | 7 => .BYTE_ARRAY
  | 8 => .STRING
  | 9 => .LIST
  | 10 => .COMPOUND
  | 11 => .INT_ARRAY
  | 12 => .LONG_ARRAY
  | _ => .END

/-- The in-memory tag of the io.cpp snapshot.  `BYTE_ARRAY`, `INT_ARRAY`
and `LONG_ARRAY` tags hold a list of element *tags* (the snapshot stores
them in the shared `list_value()`, appending `Tag::of_byte` /
`Tag::of_int` / `Tag::of_long` elements); `LIST` additionally records its
`content_type`; `COMPOUND` holds an ordered sequence of named tags, a
named tag being the pair (tag, UTF-8 name bytes) mirroring `NamedTag`'s
`tag`/`name` fields. -/
inductive Tag where
  | TEnd
  | TByte (v : Int)
  | TShort (v : Int)
  | TInt (v : Int)
  | TLong (v : Int)
  | TFloat (bits : Int)
  | TDouble (bits : Int)
  | TByteArray (items : List Tag)
  | TString (v : Bytes)
  | TList (contentType : TagType) (items : List Tag)
  | TCompound (entries : List (Tag × Bytes))
  | TIntArray (items : List Tag)
  | TLongArray (items : List Tag)

/-- `NamedTag`: a tag paired with its UTF-8 name bytes. -/
abbrev NamedTag := Tag × Bytes

/-- `Tag::type()`. -/
def Tag.type : Tag → TagType
  | .TEnd => .END
  | .TByte _ => .BYTE
  | .TShort _ => .SHORT
  | .TInt _ => .INT
  | .TLong _ => .LONG
  | .TFloat _ => .FLOAT
  | .TDouble _ => .DOUBLE
  | .TByteArray _ => .BYTE_ARRAY
  | .TString _ => .STRING
  | .TList _ _ => .LIST
  | .TCompound _ => .COMPOUND
  | .TIntArray _ => .INT_ARRAY
  | .TLongArray _ => .LONG_ARRAY

/-- `read_byte`: one byte, reinterpreted as `int8_t` (EOF-checked). -/
def read_byte : (s : Bytes) → Except Err (Int × {r : Bytes // r.length < s.length})
  | [] => .error .eof
  | b :: rest => .ok (castInt8 b, ⟨rest, by simp⟩)

/-- `read_short`: two big-endian bytes, `(bytes[0] << 8) + bytes[1]`
cast to `int16_t`. -/
def read_short : (s : Bytes) → Except Err (Int × {r : Bytes // r.length < s.length})
  | b0 :: b1 :: rest =>
      .ok (castInt16 (b0 * 256 + b1), ⟨rest, by simp only [List.length_cons]; omega⟩)
  | _ => .error .eof

/-- `read_int`: four big-endian bytes assembled and cast to `int32_t`
(the `int` arithmetic wraps at 2^32 exactly as the final cast does). -/
def read_int : (s : Bytes) → Except Err (Int × {r : Bytes // r.length < s.length})
  | b0 :: b1 :: b2 :: b3 :: rest =>
      .ok (castInt32 (b0 * 16777216 + b1 * 65536 + b2 * 256 + b3),
        ⟨rest, by simp only [List.length_cons]; omega⟩)
  | _ => .error .eof

/-- `read_long`: eight big-endian bytes assembled as `int64_t` — and then
passed through the source's `static_cast<int32_t>(...)`, which truncates
the value to its low 32 bits before the implicit widening back to
`int64_t`.  The truncating cast is in both snapshots (binary.cpp:170,
io.cpp:176). -/
def read_long : (s : Bytes) → Except Err (Int × {r : Bytes // r.length < s.length})
  | b0 :: b1 :: b2 :: b3 :: b4 :: b5 :: b6 :: b7 :: rest =>
      .ok (castInt32 (castInt64
        (b0 * 72057594037927936 + b1 * 281474976710656 + b2 * 1099511627776 +
         b3 * 4294967296 + b4 * 16777216 + b5 * 65536 + b6 * 256 + b7)),
        ⟨rest, by simp only [List.length_cons]; omega⟩)
  | _ => .error .eof

/-- `read_tag_type`: one `int8_t`; values outside `[0, TAG_ID_COUNT)` throw
"Invalid tag ID: %1" carrying the (signed) byte. -/
def read_tag_type (s : Bytes) : Except Err (TagType × {r : Bytes // r.length < s.length}) :=
  match read_byte s with
  | .error e => .error e
  | .ok (id, rest) =>
      if id < 0 ∨ 13 ≤ id then .error (.invalidTagId id)
      else .ok (typeOfId id.toNat, rest)

/-- `read_bytes`: exactly `n` bytes, or "EOF" when fewer are available. -/
def read_bytes (n : Nat) (s : Bytes) : Except Err (Bytes × {r : Bytes // r.length ≤ s.length}) :=
  if n ≤ s.length then .ok (s.take n, ⟨s.drop n, by simp⟩)
  else .error .eof

/-- `read_string`: a 16-bit length (read signed, then converted to
`uint16_t`, i.e. reduced mod 2^16 back to the raw big-endian value),
then that many bytes (`QString::fromUtf8` is the identity in the
byte-sequence model). -/
def read_string (s : Bytes) : Except Err (Bytes × {r : Bytes // r.length < s.length}) :=
  match read_short s with
  | .error e => .error e
  | .ok (v, ⟨r, hr⟩) =>
      match read_bytes ((v % 65536).toNat) r with
      | .error e => .error e
      | .ok (bs, ⟨r2, hr2⟩) => .ok (bs, ⟨r2, lt_of_le_of_lt hr2 hr⟩)

/-- Number of iterations of the source's `while (length-- != 0)` loop for
an `int32_t` initial value: the decrement cycles through the 2^32 values,
so a negative initial value yields `2^32 + length` iterations (the C++
relies on wrap-around of the decrement). -/
def loopCount (length : Int) : Nat := (length % 4294967296).toNat

/-- The `BYTE_ARRAY` element loop: `length` times `Tag::of_byte(read_byte(file))`. -/
def readByteItems (n : Nat) (s : Bytes) :
    Except Err (List Tag × {r : Bytes // r.length ≤ s.length}) :=
  match n with
  | 0 => .ok ([], ⟨s, le_refl _⟩)
  | n + 1 =>
      match read_byte s with
      | .error e => .error e
      | .ok (v, ⟨r, hr⟩) =>
          match readByteItems n r with
          | .error e => .error e
          | .ok (items, ⟨r2, hr2⟩) =>
              .ok (.TByte v :: items, ⟨r2, le_trans hr2 (le_of_lt hr)⟩)

/-- The `INT_ARRAY` element loop: `length` times `Tag::of_int(read_int(file))`. -/
def readIntItems (n : Nat) (s : Bytes) :
    Except Err (List Tag × {r : Bytes // r.length ≤ s.length}) :=
  match n with
  | 0 => .ok ([], ⟨s, le_refl _⟩)
  | n + 1 =>
      match read_int s with
      | .error e => .error e
      | .ok (v, ⟨r, hr⟩) =>
          match readIntItems n r with
          | .error e => .error e
          | .ok (items, ⟨r2, hr2⟩) =>
              .ok (.TInt v :: items, ⟨r2, le_trans hr2 (le_of_lt hr)⟩)

/-- The `LONG_ARRAY` element loop: `length` times `Tag::of_long(read_long(file))`. -/
def readLongItems (n : Nat) (s : Bytes) :
    Except Err (List Tag × {r : Bytes // r.length ≤ s.length}) :=
  match n with
  | 0 => .ok ([], ⟨s, le_refl _⟩)
  | n + 1 =>
      match read_long s with
      | .error e => .error e
      | .ok (v, ⟨r, hr⟩) =>
          match readLongItems n r with
          | .error e => .error e
          | .ok (items, ⟨r2, hr2⟩) =>
              .ok (.TLong v :: items, ⟨r2, le_trans hr2 (le_of_lt hr)⟩)

/-- `MAX_DEPTH` (io.cpp:31, binary.cpp:8). -/
def MAX_DEPTH : Nat := 1024

mutual

/-- `read_named` (io.cpp:54): a kind byte, then — unless the kind is End,
which yields the default (empty) `NamedTag` — a length-prefixed name and
the payload, decoded at the *same* depth. -/
def read_named (depth : Nat) (s : Bytes) :
    Except Err (NamedTag × {r : Bytes // r.length < s.length}) :=
  match read_tag_type s with
  | .error e => .error e
  | .ok (t, ⟨r, hr⟩) =>
      if t = .END then .ok ((.TEnd, []), ⟨r, hr⟩)
      else
        match read_string r with
        | .error e => .error e
        | .ok (name, ⟨r2, hr2⟩) =>
            match read_payload t depth r2 with
            | .error e => .error e
            | .ok (tag, ⟨r3, hr3⟩) => .ok ((tag, name), ⟨r3, by omega⟩)
termination_by (s.length, 0)

/-- `read_payload` (io.cpp:68): the depth ceiling is checked on entry
("Max depth reached" when `depth > MAX_DEPTH`), then the payload is
decoded by kind.  Every `TagType` has a switch case, so the after-switch
`throw IOError("Unknown tag ID")` is unreachable. -/
def read_payload (t : TagType) (depth : Nat) (s : Bytes) :
    Except Err (Tag × {r : Bytes // r.length ≤ s.length}) :=
  if MAX_DEPTH < depth then .error .maxDepth
  else
    match t with
    | .END => .ok (.TEnd, ⟨s, le_refl _⟩)
    | .BYTE =>
        match read_byte s with
        | .error e => .error e
        | .ok (v, ⟨r, hr⟩) => .ok (.TByte v, ⟨r, le_of_lt hr⟩)
    | .SHORT =>
        match read_short s with
        | .error e => .error e
        | .ok (v, ⟨r, hr⟩) => .ok (.TShort v, ⟨r, le_of_lt hr⟩)
    | .INT =>
        match read_int s with
        | .error e => .error e
        | .ok (v, ⟨r, hr⟩) => .ok (.TInt v, ⟨r, le_of_lt hr⟩)
    | .LONG =>
        match read_long s with
        | .error e => .error e
        | .ok (v, ⟨r, hr⟩) => .ok (.TLong v, ⟨r, le_of_lt hr⟩)
    | .FLOAT =>
        match read_int s with
        | .error e => .error e
        | .ok (v, ⟨r, hr⟩) => .ok (.TFloat v, ⟨r, le_of_lt hr⟩)
    | .DOUBLE =>
        match read_long s with
        | .error e => .error e
        | .ok (v, ⟨r, hr⟩) => .ok (.TDouble v, ⟨r, le_of_lt hr⟩)
    | .BYTE_ARRAY =>
        match read_int s with
        | .error e => .error e
        | .ok (len, ⟨r, hr⟩) =>
            match readByteItems (loopCount len) r with
            | .error e => .error e
            | .ok (items, ⟨r2, hr2⟩) => .ok (.TByteArray items, ⟨r2, by omega⟩)
    | .STRING =>
        match read_string s with
        | .error e => .error e
        | .ok (v, ⟨r, hr⟩) => .ok (.TString v, ⟨r, le_of_lt hr⟩)
    | .LIST =>
        match read_tag_type s with
        | .error e => .error e
        | .ok (itemType, ⟨r, hr⟩) =>
            match read_int r with
            | .error e => .error e
            | .ok (len, ⟨r2, hr2⟩) =>
                match readListItems itemType depth (loopCount len) r2 with
                | .error e => .error e
                | .ok (items, ⟨r3, hr3⟩) => .ok (.TList itemType items, ⟨r3, by omega⟩)
    | .COMPOUND =>
        match readCompoundItems depth s with
        | .error e => .error e
        | .ok (entries, ⟨r, hr⟩) => .ok (.TCompound entries, ⟨r, le_of_lt hr⟩)
    | .INT_ARRAY =>
        match read_int s with
        | .error e => .error e
        | .ok (len, ⟨r, hr⟩) =>
            match readIntItems (loopCount len) r with
            | .error e => .error e
            | .ok (items, ⟨r2, hr2⟩) => .ok (.TIntArray items, ⟨r2, by omega⟩)
    | .LONG_ARRAY =>
        match read_int s with
        | .error e => .error e
        | .ok (len, ⟨r, hr⟩) =>
            match readLongItems (loopCount len) r with
            | .error e => .error e
            | .ok (items, ⟨r2, hr2⟩) => .ok (.TLongArray items, ⟨r2, by omega⟩)
termination_by (s.length, 2)

/-- The `LIST` element loop (io.cpp:106): `length` payloads of the
declared element kind, each decoded at `depth + 1`. -/
def readListItems (t : TagType) (depth : Nat) (n : Nat) (s : Bytes) :
    Except Err (List Tag × {r : Bytes // r.length ≤ s.length}) :=
  match n with
  | 0 => .ok ([], ⟨s, le_refl _⟩)
  | m + 1 =>
      match read_payload t (depth + 1) s with
      | .error e => .error e
      | .ok (tag, ⟨r, hr⟩) =>
          match readListItems t depth m r with
          | .error e => .error e
          | .ok (items, ⟨r2, hr2⟩) => .ok (tag :: items, ⟨r2, le_trans hr2 hr⟩)
termination_by (s.length, 3 + n)
decreasing_by
  · exact Prod.Lex.right _ (by omega)
  · rcases lt_or_eq_of_le hr with h | h
    · exact Prod.Lex.left _ _ h
    · rw [h]
      exact Prod.Lex.right _ (by omega)

/-- The `COMPOUND` entry loop (io.cpp:115): named entries, read at the
compound's own depth, appended in stream order until a read whose tag
kind is End. -/
def readCompoundItems (depth : Nat) (s : Bytes) :
    Except Err (List NamedTag × {r : Bytes // r.length < s.length}) :=
  match read_named depth s with
  | .error e => .error e
  | .ok (item, ⟨r, hr⟩) =>
      if item.1.type = .END then .ok ([], ⟨r, hr⟩)
      else
        match readCompoundItems depth r with
        | .error e => .error e
        | .ok (items, ⟨r2, hr2⟩) => .ok (item :: items, ⟨r2, lt_trans hr2 hr⟩)
termination_by (s.length, 1)

end

/-- `read_named_binary` (io.cpp:46): a named root read at depth 0. -/
def read_named_binary (s : Bytes) : Except Err NamedTag :=
  (read_named 0 s).map fun p => p.1

/-- `read_unnamed_binary` via `read_unnamed` (io.cpp:63): a kind byte and
a bare payload at depth 0. -/
def read_unnamed_binary (s : Bytes) : Except Err Tag :=
  match read_tag_type s with
  | .error e => .error e
  | .ok (t, ⟨r, _⟩) =>
      match read_payload t 0 r with
      | .error e => .error e
      | .ok (tag, _) => .ok tag

/-- `write_byte` (io.cpp:316): `putChar` stores the value's low byte. -/
def write_byte (value : Int) : Bytes := [(value % 256).toNat]

/-- `write_short` (io.cpp:321): two big-endian bytes, each an arithmetic
shift (`fdiv`) then a `char` truncation (`% 256`). -/
def write_short (value : Int) : Bytes :=
  [((value.fdiv 256) % 256).toNat, (value % 256).toNat]

/-- `write_int` (io.cpp:328): four big-endian bytes. -/
def write_int (value : Int) : Bytes :=
  [((value.fdiv 16777216) % 256).toNat, ((value.fdiv 65536) % 256).toNat,
   ((value.fdiv 256) % 256).toNat, (value % 256).toNat]

/-- `write_long` (io.cpp:337): eight big-endian bytes. -/
def write_long (value : Int) : Bytes :=
  [((value.fdiv 72057594037927936) % 256).toNat,
   ((value.fdiv 281474976710656) % 256).toNat,
   ((value.fdiv 1099511627776) % 256).toNat,
   ((value.fdiv 4294967296) % 256).toNat,
   ((value.fdiv 16777216) % 256).toNat,
   ((value.fdiv 65536) % 256).toNat,
   ((value.fdiv 256) % 256).toNat,
   (value % 256).toNat]

/-- `numeric_cast<int16_t>` (io.cpp:239) applied to a byte count:
`int16_t` is signed so the negativity pre-check is skipped, and the
value is rejected when it lies outside `[-32768, 32767]`. -/
def numeric_cast_int16 (value : Int) : Option Int :=
  if 32767 < value then none
  else if value < -32768 then none
  else some value

/-- `write_string` (io.cpp:364): the UTF-8 byte length is pushed through
`numeric_cast<int16_t>`; on overflow the write fails with
"String too long", otherwise the 16-bit length and the bytes follow. -/
def write_string (value : Bytes) : Except Err Bytes :=
  match numeric_cast_int16 (value.length : Int) with
  | none => .error .stringTooLong
  | some length => .ok (write_short length ++ value)

mutual

/-- `write_named` (io.cpp:251): the kind byte; then, unless the kind is
End, the length-prefixed name and the payload. -/
def write_named (value : NamedTag) (depth : Nat) : Except Err Bytes :=
  match value with
  | (tag, name) =>
      if tag.type = .END then .ok (write_byte (tag.type.toId : Int))
      else
        match write_string name with
        | .error e => .error e
        | .ok nameBytes =>
            match write_payload tag depth with
            | .error e => .error e
            | .ok payloadBytes =>
                .ok (write_byte (tag.type.toId : Int) ++ nameBytes ++ payloadBytes)

/-- `write_payload` (io.cpp:266): structural inverse of `read_payload`.
`LIST`/`BYTE_ARRAY`/`INT_ARRAY`/`LONG_ARRAY` share one branch (only
`LIST` emits the element-kind byte), elements are written at `depth + 1`;
`COMPOUND` writes its entries in sequence order at `depth + 1` and then
one End byte.  Every constructor is covered, so the after-switch
`throw IOError("Unknown tag ID")` is unreachable. -/
def write_payload (value : Tag) (depth : Nat) : Except Err Bytes :=
  match value with
  | .TEnd => .ok []
  | .TByte v => .ok (write_byte v)
  | .TShort v => .ok (write_short v)
  | .TInt v => .ok (write_int v)
  | .TLong v => .ok (write_long v)
  | .TFloat bits => .ok (write_int bits)
  | .TDouble bits => .ok (write_long bits)
  | .TString v => write_string v
  | .TList t items =>
      match writeItems items (depth + 1) with
      | .error e => .error e
      | .ok body =>
          .ok (write_byte (t.toId : Int) ++ write_int (items.length : Int) ++ body)
  | .TByteArray items =>
      match writeItems items (depth + 1) with
      | .error e => .error e
      | .ok body => .ok (write_int (items.length : Int) ++ body)
  | .TIntArray items =>
      match writeItems items (depth + 1) with
      | .error e => .error e
      | .ok body => .ok (write_int (items.length : Int) ++ body)
  | .TLongArray items =>
      match writeItems items (depth + 1) with
      | .error e => .error e
      | .ok body => .ok (write_int (items.length : Int) ++ body)
  | .TCompound entries =>
      match writeEntries entries (depth + 1) with
      | .error e => .error e
      | .ok body => .ok (body ++ write_byte ((TagType.END).toId : Int))

/-- The element loop of the shared `LIST`/array branch (io.cpp:300). -/
def writeItems (items : List Tag) (depth : Nat) : Except Err Bytes :=
  match items with
  | [] => .ok []
  | tag :: rest =>
      match write_payload tag depth with
      | .error e => .error e
      | .ok b =>
          match writeItems rest depth with
          | .error e => .error e
          | .ok bs => .ok (b ++ bs)

/-- The entry loop of the `COMPOUND` branch (io.cpp:305). -/
def writeEntries (entries : List NamedTag) (depth : Nat) : Except Err Bytes :=
  match entries with
  | [] => .ok []
  | e :: rest =>
      match write_named e depth with
      | .error e => .error e
      | .ok b =>
          match writeEntries rest depth with
          | .error e => .error e
          | .ok bs => .ok (b ++ bs)

end

/-- `write_named_binary` (io.cpp:231). -/
def write_named_binary (tag : NamedTag) : Except Err Bytes :=
  write_named tag 0

/-- `write_unnamed_binary` via `write_unnamed` (io.cpp:261): the kind
byte, then the payload at depth 0. -/
def write_unnamed_binary (value : Tag) : Except Err Bytes :=
  match write_payload value 0 with
  | .error e => .error e
  | .ok b => .ok (write_byte (value.type.toId : Int) ++ b)

instance : DecidableEq (Except Err Bytes) := fun a b =>
  match a, b with
  | .ok x, .ok y => if h : x = y then .isTrue (by rw [h]) else .isFalse (by simp [h])
  | .error x, .error y => if h : x = y then .isTrue (by rw [h]) else .isFalse (by simp [h])
  | .ok _, .error _ => .isFalse (by simp)
  | .error _, .ok _ => .isFalse (by simp)

theorem castInt8_small {b : Nat} (h : b ≤ 127) : castInt8 b = b := by
  unfold castInt8
  split <;> omega

theorem castInt16_small_emod {n : Int} (h0 : 0 ≤ n) (h1 : n < 65536) :
    castInt16 n % 65536 = n := by
  unfold castInt16
  split <;> omega

theorem read_byte_cons (b : Nat) (s : Bytes) :
    read_byte (b :: s) = .ok (castInt8 b, ⟨s, by simp⟩) := rfl

theorem read_byte_nil : read_byte [] = .error .eof := rfl

theorem read_tag_type_valid {b : Nat} (s : Bytes) (h : b ≤ 12) :
    read_tag_type (b :: s) = .ok (typeOfId b, ⟨s, by simp⟩) := by
  unfold read_tag_type
  rw [read_byte_cons, castInt8_small (by omega)]
  have hc : ¬((b : Int) < 0 ∨ 13 ≤ (b : Int)) := by omega
  have ht : ((b : Nat) : Int).toNat = b := by omega
  simp only [hc, if_false, ht]

theorem read_tag_type_invalid {b : Nat} (s : Bytes) (h1 : 13 ≤ b) (h2 : b < 256) :
    read_tag_type (b :: s) = .error (.invalidTagId (castInt8 b)) := by
  unfold read_tag_type
  rw [read_byte_cons]
  have hc : (castInt8 b) < 0 ∨ 13 ≤ (castInt8 b) := by unfold castInt8; split <;> omega
  simp only [hc, if_true, if_pos hc]

theorem read_short_cons (b0 b1 : Nat) (s : Bytes) :
    read_short (b0 :: b1 :: s) =
      .ok (castInt16 ((b0 : Int) * 256 + (b1 : Int)),
        ⟨s, by simp only [List.length_cons]; omega⟩) := rfl

theorem read_int_cons (b0 b1 b2 b3 : Nat) (s : Bytes) :
    read_int (b0 :: b1 :: b2 :: b3 :: s) =
      .ok (castInt32 ((b0 : Int) * 16777216 + (b1 : Int) * 65536 + (b2 : Int) * 256 + (b3 : Int)),
        ⟨s, by simp only [List.length_cons]; omega⟩) := rfl

theorem read_long_cons (b0 b1 b2 b3 b4 b5 b6 b7 : Nat) (s : Bytes) :
    read_long (b0 :: b1 :: b2 :: b3 :: b4 :: b5 :: b6 :: b7 :: s) =
      .ok (castInt32 (castInt64
        ((b0 : Int) * 72057594037927936 + (b1 : Int) * 281474976710656 +
         (b2 : Int) * 1099511627776 + (b3 : Int) * 4294967296 + (b4 : Int) * 16777216 +
         (b5 : Int) * 65536 + (b6 : Int) * 256 + (b7 : Int))),
        ⟨s, by simp only [List.length_cons]; omega⟩) := rfl

theorem read_bytes_ok {n : Nat} {s : Bytes} (h : n ≤ s.length) :
    read_bytes n s = .ok (s.take n, ⟨s.drop n, by simp⟩) := by
  simp only [read_bytes, if_pos h]

/-- Reading a zero-length string (wire bytes `00 00`) consumes exactly the
two length bytes and yields the empty name. -/
theorem read_string_empty (s : Bytes) :
    read_string (0 :: 0 :: s) =
      .ok ([], ⟨s, by simp only [List.length_cons]; omega⟩) := by
  rw [read_string, read_short_cons]
  norm_num [castInt16, read_bytes]

theorem read_payload_overdepth (t : TagType) {depth : Nat} (s : Bytes) (h : 1024 < depth) :
    read_payload t depth s = .error .maxDepth := by
  rw [read_payload.eq_def, if_pos (show MAX_DEPTH < depth from h)]

theorem read_payload_END {depth : Nat} (h : depth ≤ 1024) (s : Bytes) :
    read_payload .END depth s = .ok (.TEnd, ⟨s, le_refl _⟩) := by
  rw [read_payload.eq_def, if_neg (show ¬ MAX_DEPTH < depth by simp [MAX_DEPTH]; omega)]

theorem read_payload_BYTE {depth : Nat} (h : depth ≤ 1024) (s : Bytes) :
    read_payload .BYTE depth s =
      match read_byte s with
      | .error e => .error e
      | .ok (v, ⟨r, hr⟩) => .ok (.TByte v, ⟨r, le_of_lt hr⟩) := by
  rw [read_payload.eq_def, if_neg (show ¬ MAX_DEPTH < depth by simp [MAX_DEPTH]; omega)]

theorem read_payload_SHORT {depth : Nat} (h : depth ≤ 1024) (s : Bytes) :
    read_payload .SHORT depth s =
      match read_short s with
      | .error e => .error e
      | .ok (v, ⟨r, hr⟩) => .ok (.TShort v, ⟨r, le_of_lt hr⟩) := by
  rw [read_payload.eq_def, if_neg (show ¬ MAX_DEPTH < depth by simp [MAX_DEPTH]; omega)]

theorem read_payload_INT {depth : Nat} (h : depth ≤ 1024) (s : Bytes) :
    read_payload .INT depth s =
      match read_int s with
      | .error e => .error e
      | .ok (v, ⟨r, hr⟩) => .ok (.TInt v, ⟨r, le_of_lt hr⟩) := by
  rw [read_payload.eq_def, if_neg (show ¬ MAX_DEPTH < depth by simp [MAX_DEPTH]; omega)]

theorem read_payload_LONG {depth : Nat} (h : depth ≤ 1024) (s : Bytes) :
    read_payload .LONG depth s =
      match read_long s with
      | .error e => .error e
      | .ok (v, ⟨r, hr⟩) => .ok (.TLong v, ⟨r, le_of_lt hr⟩) := by
  rw [read_payload.eq_def, if_neg (show ¬ MAX_DEPTH < depth by simp [MAX_DEPTH]; omega)]

theorem read_payload_FLOAT {depth : Nat} (h : depth ≤ 1024) (s : Bytes) :
    read_payload .FLOAT depth s =
      match read_int s with
      | .error e => .error e
      | .ok (v, ⟨r, hr⟩) => .ok (.TFloat v, ⟨r, le_of_lt hr⟩) := by
  rw [read_payload.eq_def, if_neg (show ¬ MAX_DEPTH < depth by simp [MAX_DEPTH]; omega)]

theorem read_payload_DOUBLE {depth : Nat} (h : depth ≤ 1024) (s : Bytes) :
    read_payload .DOUBLE depth s =
      match read_long s with
      | .error e => .error e
      | .ok (v, ⟨r, hr⟩) => .ok (.TDouble v, ⟨r, le_of_lt hr⟩) := by
  rw [read_payload.eq_def, if_neg (show ¬ MAX_DEPTH < depth by simp [MAX_DEPTH]; omega)]

theorem read_payload_STRING {depth : Nat} (h : depth ≤ 1024) (s : Bytes) :
    read_payload .STRING depth s =
      match read_string s with
      | .error e => .error e
      | .ok (v, ⟨r, hr⟩) => .ok (.TString v, ⟨r, le_of_lt hr⟩) := by
  rw [read_payload.eq_def, if_neg (show ¬ MAX_DEPTH < depth by simp [MAX_DEPTH]; omega)]

theorem read_payload_BYTE_ARRAY {depth : Nat} (h : depth ≤ 1024) (s : Bytes) :
    read_payload .BYTE_ARRAY depth s =
      match read_int s with
      | .error e => .error e
      | .ok (len, ⟨r, hr⟩) =>
          match readByteItems (loopCount len) r with
          | .error e => .error e
          | .ok (items, ⟨r2, hr2⟩) => .ok (.TByteArray items, ⟨r2, by omega⟩) := by
  rw [read_payload.eq_def, if_neg (show ¬ MAX_DEPTH < depth by simp [MAX_DEPTH]; omega)]

theorem read_payload_INT_ARRAY {depth : Nat} (h : depth ≤ 1024) (s : Bytes) :
    read_payload .INT_ARRAY depth s =
      match read_int s with
      | .error e => .error e
      | .ok (len, ⟨r, hr⟩) =>
          match readIntItems (loopCount len) r with
          | .error e => .error e
          | .ok (items, ⟨r2, hr2⟩) => .ok (.TIntArray items, ⟨r2, by omega⟩) := by
  rw [read_payload.eq_def, if_neg (show ¬ MAX_DEPTH < depth by simp [MAX_DEPTH]; omega)]

theorem read_payload_LONG_ARRAY {depth : Nat} (h : depth ≤ 1024) (s : Bytes) :
    read_payload .LONG_ARRAY depth s =
      match read_int s with
      | .error e => .error e
      | .ok (len, ⟨r, hr⟩) =>
          match readLongItems (loopCount len) r with
          | .error e => .error e
          | .ok (items, ⟨r2, hr2⟩) => .ok (.TLongArray items, ⟨r2, by omega⟩) := by
  rw [read_payload.eq_def, if_neg (show ¬ MAX_DEPTH < depth by simp [MAX_DEPTH]; omega)]

theorem read_payload_LIST {depth : Nat} (h : depth ≤ 1024) (s : Bytes) :
    read_payload .LIST depth s =
      match read_tag_type s with
      | .error e => .error e
      | .ok (itemType, ⟨r, hr⟩) =>
          match read_int r with
          | .error e => .error e
          | .ok (len, ⟨r2, hr2⟩) =>
              match readListItems itemType depth (loopCount len) r2 with
              | .error e => .error e
              | .ok (items, ⟨r3, hr3⟩) => .ok (.TList itemType items, ⟨r3, by omega⟩) := by
  rw [read_payload.eq_def, if_neg (show ¬ MAX_DEPTH < depth by simp [MAX_DEPTH]; omega)]

theorem read_payload_COMPOUND {depth : Nat} (h : depth ≤ 1024) (s : Bytes) :
    read_payload .COMPOUND depth s =
      match readCompoundItems depth s with
      | .error e => .error e
      | .ok (entries, ⟨r, hr⟩) => .ok (.TCompound entries, ⟨r, le_of_lt hr⟩) := by
  rw [read_payload.eq_def, if_neg (show ¬ MAX_DEPTH < depth by simp [MAX_DEPTH]; omega)]

theorem readListItems_zero (t : TagType) (depth : Nat) (s : Bytes) :
    readListItems t depth 0 s = .ok ([], ⟨s, le_refl _⟩) := by
  rw [readListItems.eq_def]

theorem readListItems_succ (t : TagType) (depth m : Nat) (s : Bytes) :
    readListItems t depth (m + 1) s =
      match read_payload t (depth + 1) s with
      | .error e => .error e
      | .ok (tag, ⟨r, hr⟩) =>
          match readListItems t depth m r with
          | .error e => .error e
          | .ok (items, ⟨r2, hr2⟩) => .ok (tag :: items, ⟨r2, le_trans hr2 hr⟩) := by
  rw [readListItems.eq_def]

theorem readCompoundItems_eq (depth : Nat) (s : Bytes) :
    readCompoundItems depth s =
      match read_named depth s with
      | .error e => .error e
      | .ok (item, ⟨r, hr⟩) =>
          if item.1.type = .END then .ok ([], ⟨r, hr⟩)
          else
            match readCompoundItems depth r with
            | .error e => .error e
            | .ok (items, ⟨r2, hr2⟩) => .ok (item :: items, ⟨r2, lt_trans hr2 hr⟩) := by
  rw [readCompoundItems.eq_def]

theorem read_named_eq (depth : Nat) (s : Bytes) :
    read_named depth s =
      match read_tag_type s with
      | .error e => .error e
      | .ok (t, ⟨r, hr⟩) =>
          if t = .END then .ok ((.TEnd, []), ⟨r, hr⟩)
          else
            match read_string r with
            | .error e => .error e
            | .ok (name, ⟨r2, hr2⟩) =>
                match read_payload t depth r2 with
                | .error e => .error e
                | .ok (tag, ⟨r3, hr3⟩) => .ok ((tag, name), ⟨r3, by omega⟩) := by
  rw [read_named.eq_def]

theorem castInt32_of_small {n : Int} (h0 : 0 ≤ n) (h1 : n < 2147483648) :
    castInt32 n = n := by
  unfold castInt32
  split <;> omega

theorem loopCount_of_nonneg {v : Int} (h0 : 0 ≤ v) (h1 : v < 4294967296) :
    loopCount v = v.toNat := by
  unfold loopCount
  omega

/-- The element loop of an array hits "EOF" when the declared count
exceeds the bytes available. -/
theorem readByteItems_short {n : Nat} :
    ∀ {s : Bytes}, s.length < n → readByteItems n s = .error .eof := by
  induction n with
  | zero => intro s h; omega
  | succ m ih =>
      intro s h
      match s with
      | [] => rw [readByteItems.eq_def]; rfl
      | b :: s' =>
          rw [readByteItems.eq_def]
          have hb : read_byte (b :: s') = .ok (castInt8 b, ⟨s', by simp⟩) := rfl
          have hlt : s'.length < m := by simpa using h
          simp only [hb, ih hlt]

/-- Decoding `n` successive payloads of kind End consumes nothing and
produces `n` End tags, as long as the elements' depth passes the guard. -/
theorem readListItems_END {depth : Nat} (h : depth + 1 ≤ 1024) :
    ∀ (n : Nat) (s : Bytes),
      readListItems .END depth n s = .ok (List.replicate n Tag.TEnd, ⟨s, le_refl _⟩) := by
  intro n
  induction n with
  | zero => intro s; rw [readListItems_zero]; rfl
  | succ m ih =>
      intro s
      rw [readListItems_succ, read_payload_END h]
      simp only [ih, List.replicate_succ]

/-- An End kind byte terminates the compound entry loop at any depth
(the End branch of `read_named` returns before any depth check). -/
theorem readCompoundItems_end (depth : Nat) (s : Bytes) :
    readCompoundItems depth (0 :: s) = .ok ([], ⟨s, by simp⟩) := by
  rw [readCompoundItems_eq, read_named_eq, read_tag_type_valid _ (by norm_num)]
  norm_num [typeOfId, Tag.type]

/-- Proof-erased view of `read_tag_type` (drops the consumption bound). -/
def read_tag_typeV (s : Bytes) : Except Err (TagType × Bytes) :=
  (read_tag_type s).map fun p => (p.1, p.2.1)

/-- Proof-erased view of `read_byte`. -/
def read_byteV (s : Bytes) : Except Err (Int × Bytes) :=
  (read_byte s).map fun p => (p.1, p.2.1)

/-- Proof-erased view of `read_int`. -/
def read_intV (s : Bytes) : Except Err (Int × Bytes) :=
  (read_int s).map fun p => (p.1, p.2.1)

/-- Proof-erased view of `read_long`. -/
def read_longV (s : Bytes) : Except Err (Int × Bytes) :=
  (read_long s).map fun p => (p.1, p.2.1)

/-- Proof-erased view of `read_string`. -/
def read_stringV (s : Bytes) : Except Err (Bytes × Bytes) :=
  (read_string s).map fun p => (p.1, p.2.1)

/-- Proof-erased view of `read_payload`. -/
def read_payloadV (t : TagType) (depth : Nat) (s : Bytes) : Except Err (Tag × Bytes) :=
  (read_payload t depth s).map fun p => (p.1, p.2.1)

/-- Proof-erased view of `read_named`. -/
def read_namedV (depth : Nat) (s : Bytes) : Except Err (NamedTag × Bytes) :=
  (read_named depth s).map fun p => (p.1, p.2.1)

/-- Proof-erased view of `readCompoundItems`. -/
def readCompoundItemsV (depth : Nat) (s : Bytes) : Except Err (List NamedTag × Bytes) :=
  (readCompoundItems depth s).map fun p => (p.1, p.2.1)

/-- Proof-erased view of `readListItems`. -/
def readListItemsV (t : TagType) (depth n : Nat) (s : Bytes) : Except Err (List Tag × Bytes) :=
  (readListItems t depth n s).map fun p => (p.1, p.2.1)

/-- Proof-erased view of `readByteItems`. -/
def readByteItemsV (n : Nat) (s : Bytes) : Except Err (List Tag × Bytes) :=
  (readByteItems n s).map fun p => (p.1, p.2.1)

theorem read_tag_typeV_valid {b : Nat} (s : Bytes) (h : b ≤ 12) :
    read_tag_typeV (b :: s) = .ok (typeOfId b, s) := by
  rw [read_tag_typeV, read_tag_type_valid _ h]
  rfl

theorem read_tag_typeV_invalid {b : Nat} (s : Bytes) (h1 : 13 ≤ b) (h2 : b < 256) :
    read_tag_typeV (b :: s) = .error (.invalidTagId (castInt8 b)) := by
  rw [read_tag_typeV, read_tag_type_invalid _ h1 h2]
  rfl

theorem read_byteV_cons (b : Nat) (s : Bytes) :
    read_byteV (b :: s) = .ok (castInt8 b, s) := by
  rw [read_byteV, read_byte_cons]
  simp [Except.map]

theorem read_byteV_nil : read_byteV [] = .error .eof := rfl

theorem read_intV_cons (b0 b1 b2 b3 : Nat) (s : Bytes) :
    read_intV (b0 :: b1 :: b2 :: b3 :: s) =
      .ok (castInt32 ((b0 : Int) * 16777216 + (b1 : Int) * 65536 + (b2 : Int) * 256 +
        (b3 : Int)), s) := by
  rw [read_intV, read_int_cons]
  simp [Except.map]

theorem read_longV_cons (b0 b1 b2 b3 b4 b5 b6 b7 : Nat) (s : Bytes) :
    read_longV (b0 :: b1 :: b2 :: b3 :: b4 :: b5 :: b6 :: b7 :: s) =
      .ok (castInt32 (castInt64
        ((b0 : Int) * 72057594037927936 + (b1 : Int) * 281474976710656 +
         (b2 : Int) * 1099511627776 + (b3 : Int) * 4294967296 + (b4 : Int) * 16777216 +
         (b5 : Int) * 65536 + (b6 : Int) * 256 + (b7 : Int))), s) := by
  rw [read_longV, read_long_cons]
  simp [Except.map]

theorem read_stringV_empty (s : Bytes) :
    read_stringV (0 :: 0 :: s) = .ok ([], s) := by
  rw [read_stringV, read_string_empty]
  rfl

/-- Recover the bounded-result form from a proof-erased view equation. -/
theorem map_proj_ok {α : Type} {pred : Bytes → Prop}
    (x : Except Err (α × {r : Bytes // pred r})) (a : α) (b : Bytes)
    (h : x.map (fun p => (p.1, p.2.1)) = .ok (a, b)) :
    ∃ hb : pred b, x = .ok (a, ⟨b, hb⟩) := by
  cases x with
  | error e => simp [Except.map] at h
  | ok p =>
      obtain ⟨a', ⟨r, hr⟩⟩ := p
      simp [Except.map] at h
      obtain ⟨h1, h2⟩ := h
      subst h1
      subst h2
      exact ⟨hr, rfl⟩

theorem read_payloadV_overdepth (t : TagType) {depth : Nat} (s : Bytes) (h : 1024 < depth) :
    read_payloadV t depth s = .error .maxDepth := by
  rw [read_payloadV, read_payload_overdepth t s h]
  rfl

theorem read_payloadV_END {depth : Nat} (h : depth ≤ 1024) (s : Bytes) :
    read_payloadV .END depth s = .ok (.TEnd, s) := by
  rw [read_payloadV, read_payload_END h]
  simp [Except.map]

theorem read_payloadV_BYTE {depth : Nat} (h : depth ≤ 1024) (s : Bytes) :
    read_payloadV .BYTE depth s = (read_byteV s).map fun p => (Tag.TByte p.1, p.2) := by
  rw [read_payloadV, read_payload_BYTE h, read_byteV]
  cases hc : read_byte s with
  | error e => simp [Except.map]
  | ok p => obtain ⟨v, ⟨r, hr⟩⟩ := p; simp [Except.map]

theorem read_payloadV_LONG {depth : Nat} (h : depth ≤ 1024) (s : Bytes) :
    read_payloadV .LONG depth s = (read_longV s).map fun p => (Tag.TLong p.1, p.2) := by
  rw [read_payloadV, read_payload_LONG h, read_longV]
  cases hc : read_long s with
  | error e => simp [Except.map]
  | ok p => obtain ⟨v, ⟨r, hr⟩⟩ := p; simp [Except.map]

theorem read_payloadV_INT {depth : Nat} (h : depth ≤ 1024) (s : Bytes) :
    read_payloadV .INT depth s = (read_intV s).map fun p => (Tag.TInt p.1, p.2) := by
  rw [read_payloadV, read_payload_INT h, read_intV]
  cases hc : read_int s with
  | error e => simp [Except.map]
  | ok p => obtain ⟨v, ⟨r, hr⟩⟩ := p; simp [Except.map]

theorem read_payloadV_STRING {depth : Nat} (h : depth ≤ 1024) (s : Bytes) :
    read_payloadV .STRING depth s = (read_stringV s).map fun p => (Tag.TString p.1, p.2) := by
  rw [read_payloadV, read_payload_STRING h, read_stringV]
  cases hc : read_string s with
  | error e => simp [Except.map]
  | ok p => obtain ⟨v, ⟨r, hr⟩⟩ := p; simp [Except.map]

theorem read_payloadV_COMPOUND {depth : Nat} (h : depth ≤ 1024) (s : Bytes) :
    read_payloadV .COMPOUND depth s =
      (readCompoundItemsV depth s).map fun p => (Tag.TCompound p.1, p.2) := by
  rw [read_payloadV, read_payload_COMPOUND h, readCompoundItemsV]
  cases hc : readCompoundItems depth s with
  | error e => simp [Except.map]
  | ok p => obtain ⟨entries, ⟨r, hr⟩⟩ := p; simp [Except.map]

theorem read_payloadV_BYTE_ARRAY {depth : Nat} (h : depth ≤ 1024) {s : Bytes}
    {len : Int} {r : Bytes} (hi : read_intV s = .ok (len, r)) :
    read_payloadV .BYTE_ARRAY depth s =
      (readByteItemsV (loopCount len) r).map fun p => (Tag.TByteArray p.1, p.2) := by
  obtain ⟨hb, hx⟩ := map_proj_ok _ _ _ hi
  rw [read_payloadV, read_payload_BYTE_ARRAY h, hx, readByteItemsV]
  cases hc : readByteItems (loopCount len) r with
  | error e => simp [Except.map, hc]
  | ok p => obtain ⟨items, ⟨r2, hr2⟩⟩ := p; simp [Except.map, hc]

theorem read_payloadV_LIST {depth : Nat} (h : depth ≤ 1024) {s : Bytes}
    {it : TagType} {r : Bytes} {len : Int} {r2 : Bytes}
    (ht : read_tag_typeV s = .ok (it, r)) (hi : read_intV r = .ok (len, r2)) :
    read_payloadV .LIST depth s =
      (readListItemsV it depth (loopCount len) r2).map fun p => (Tag.TList it p.1, p.2) := by
  obtain ⟨hb1, hx1⟩ := map_proj_ok _ _ _ ht
  obtain ⟨hb2, hx2⟩ := map_proj_ok _ _ _ hi
  rw [read_payloadV, read_payload_LIST h, hx1]
  cases hc : readListItems it depth (loopCount len) r2 with
  | error e => simp [Except.map, hx2, hc, readListItemsV]
  | ok p => obtain ⟨items, ⟨r3, hr3⟩⟩ := p; simp [Except.map, hx2, hc, readListItemsV]

theorem read_namedV_end {depth : Nat} {s r : Bytes}
    (ht : read_tag_typeV s = .ok (.END, r)) :
    read_namedV depth s = .ok ((.TEnd, []), r) := by
  obtain ⟨hb, hx⟩ := map_proj_ok _ _ _ ht
  rw [read_namedV, read_named_eq, hx]
  simp [Except.map]

theorem read_namedV_step {depth : Nat} {s r r2 name : Bytes} {t : TagType}
    (ht : read_tag_typeV s = .ok (t, r)) (hne : t ≠ .END)
    (hs : read_stringV r = .ok (name, r2)) :
    read_namedV depth s = (read_payloadV t depth r2).map fun p => ((p.1, name), p.2) := by
  obtain ⟨hb1, hx1⟩ := map_proj_ok _ _ _ ht
  obtain ⟨hb2, hx2⟩ := map_proj_ok _ _ _ hs
  rw [read_namedV, read_named_eq, hx1, read_payloadV]
  simp only [hne, if_false]
  rw [hx2]
  cases hc : read_payload t depth r2 with
  | error e => simp [Except.map, hc]
  | ok p => obtain ⟨tag, ⟨r3, hr3⟩⟩ := p; simp [Except.map, hc]

theorem readCompoundItemsV_stop {depth : Nat} {s r : Bytes} {item : NamedTag}
    (hn : read_namedV depth s = .ok (item, r)) (he : item.1.type = .END) :
    readCompoundItemsV depth s = .ok ([], r) := by
  obtain ⟨hb, hx⟩ := map_proj_ok _ _ _ hn
  rw [readCompoundItemsV, readCompoundItems_eq, hx]
  simp [Except.map, he]

theorem readCompoundItemsV_cons {depth : Nat} {s r : Bytes} {item : NamedTag}
    (hn : read_namedV depth s = .ok (item, r)) (hne : item.1.type ≠ .END) :
    readCompoundItemsV depth s =
      (readCompoundItemsV depth r).map fun p => (item :: p.1, p.2) := by
  obtain ⟨hb, hx⟩ := map_proj_ok _ _ _ hn
  rw [readCompoundItemsV, readCompoundItems_eq, hx]
  simp only [hne, if_false]
  rw [readCompoundItemsV]
  cases hc : readCompoundItems depth r with
  | error e => simp [Except.map, hc]
  | ok p => obtain ⟨items, ⟨r2, hr2⟩⟩ := p; simp [Except.map, hc]

theorem readListItemsV_zero (t : TagType) (depth : Nat) (s : Bytes) :
    readListItemsV t depth 0 s = .ok ([], s) := by
  rw [readListItemsV, readListItems_zero]
  simp [Except.map]

theorem readListItemsV_succ {t : TagType} {depth m : Nat} {s r : Bytes} {tag : Tag}
    (hp : read_payloadV t (depth + 1) s = .ok (tag, r)) :
    readListItemsV t depth (m + 1) s =
      (readListItemsV t depth m r).map fun p => (tag :: p.1, p.2) := by
  obtain ⟨hb, hx⟩ := map_proj_ok _ _ _ hp
  rw [readListItemsV, readListItems_succ, hx, readListItemsV]
  cases hc : readListItems t depth m r with
  | error e => simp [Except.map, hc]
  | ok p => obtain ⟨items, ⟨r2, hr2⟩⟩ := p; simp [Except.map, hc]

theorem map_proj_error {α : Type} {pred : Bytes → Prop}
    (x : Except Err (α × {r : Bytes // pred r})) (e : Err)
    (h : x.map (fun p => (p.1, p.2.1)) = .error e) : x = .error e := by
  cases x with
  | error e' => simpa [Except.map] using h
  | ok p => simp [Except.map] at h

theorem readListItemsV_succ_err {t : TagType} {depth m : Nat} {s : Bytes} {e : Err}
    (hp : read_payloadV t (depth + 1) s = .error e) :
    readListItemsV t depth (m + 1) s = .error e := by
  have hx := map_proj_error _ _ hp
  rw [readListItemsV, readListItems_succ, hx]
  rfl

theorem readListItemsV_END {depth : Nat} (h : depth + 1 ≤ 1024) (n : Nat) (s : Bytes) :
    readListItemsV .END depth n s = .ok (List.replicate n Tag.TEnd, s) := by
  rw [readListItemsV, readListItems_END h n s]
  simp [Except.map]

theorem readByteItemsV_short {n : Nat} {s : Bytes} (h : s.length < n) :
    readByteItemsV n s = .error .eof := by
  rw [readByteItemsV, readByteItems_short h]
  rfl

/-- Bridge from `read_unnamed_binary` to the proof-erased views. -/
theorem read_unnamed_binary_eq (s : Bytes) :
    read_unnamed_binary s =
      match read_tag_typeV s with
      | .error e => .error e
      | .ok (t, r) => (read_payloadV t 0 r).map fun p => p.1 := by
  rw [read_unnamed_binary, read_tag_typeV]
  cases ht : read_tag_type s with
  | error e => simp [Except.map]
  | ok p =>
      obtain ⟨t, ⟨r, hr⟩⟩ := p
      cases hp : read_payload t 0 r with
      | error e => simp [Except.map, read_payloadV, hp]
      | ok q => obtain ⟨tag, ⟨r2, hr2⟩⟩ := q; simp [Except.map, read_payloadV, hp]

/-- Wire bytes of an `n`-fold nested List payload: the innermost level is
a List of element kind End with count 0; each outer level is a List of
element kind List with count 1. -/
def lpBytes : Nat → Bytes
  | 0 => [0, 0, 0, 0, 0]
  | n + 1 => 9 :: 0 :: 0 :: 0 :: 1 :: lpBytes n

/-- The tag tree the `lpBytes` chain decodes to. -/
def listChain : Nat → Tag
  | 0 => .TList .END []
  | n + 1 => .TList .LIST [listChain n]

/-- Wire bytes of an `n`-fold nested Compound payload: each level holds a
single empty-named entry whose payload is the next level, and each level
is closed by an End byte. -/
def cpBytes : Nat → Bytes
  | 0 => [0]
  | n + 1 => 10 :: 0 :: 0 :: (cpBytes n ++ [0])

/-- The tag tree the `cpBytes` chain decodes to. -/
def compoundChain : Nat → Tag
  | 0 => .TCompound []
  | n + 1 => .TCompound [(compoundChain n, [])]

theorem compoundChain_type (n : Nat) : (compoundChain n).type = .COMPOUND := by
  cases n <;> rfl

/-- A nested-List payload whose innermost level sits beyond the ceiling
fails with "Max depth reached": each List descent advances the depth. -/
theorem lpBytes_fail :
    ∀ (n depth : Nat) (rest : Bytes), 1024 < depth + n →
      read_payloadV .LIST depth (lpBytes n ++ rest) = .error .maxDepth := by
  intro n
  induction n with
  | zero =>
      intro depth rest h
      exact read_payloadV_overdepth _ _ (by omega)
  | succ m ih =>
      intro depth rest h
      by_cases hd : 1024 < depth
      · exact read_payloadV_overdepth _ _ hd
      · have hd' : depth ≤ 1024 := by omega
        rw [show lpBytes (m + 1) ++ rest = 9 :: 0 :: 0 :: 0 :: 1 :: (lpBytes m ++ rest) by
          simp [lpBytes]]
        have ht : read_tag_typeV (9 :: 0 :: 0 :: 0 :: 1 :: (lpBytes m ++ rest)) =
            .ok (.LIST, 0 :: 0 :: 0 :: 1 :: (lpBytes m ++ rest)) := by
          rw [read_tag_typeV_valid _ (by norm_num)]
          rfl
        have hi : read_intV (0 :: 0 :: 0 :: 1 :: (lpBytes m ++ rest)) =
            .ok (1, lpBytes m ++ rest) := by
          rw [read_intV_cons]
          norm_num [castInt32]
        rw [read_payloadV_LIST hd' ht hi]
        rw [show loopCount 1 = 1 by norm_num [loopCount], show (1 : Nat) = 0 + 1 from rfl]
        rw [readListItemsV_succ_err (ih (depth + 1) rest (by omega))]
        rfl

/-- A nested-List payload within the ceiling decodes to `listChain`. -/
theorem lpBytes_ok :
    ∀ (n depth : Nat) (rest : Bytes), depth + n ≤ 1024 →
      read_payloadV .LIST depth (lpBytes n ++ rest) = .ok (listChain n, rest) := by
  intro n
  induction n with
  | zero =>
      intro depth rest h
      rw [show lpBytes 0 ++ rest = 0 :: 0 :: 0 :: 0 :: 0 :: rest by simp [lpBytes]]
      have ht : read_tag_typeV (0 :: 0 :: 0 :: 0 :: 0 :: rest) =
          .ok (.END, 0 :: 0 :: 0 :: 0 :: rest) := by
        rw [read_tag_typeV_valid _ (by norm_num)]
        rfl
      have hi : read_intV (0 :: 0 :: 0 :: 0 :: rest) = .ok (0, rest) := by
        rw [read_intV_cons]
        norm_num [castInt32]
      rw [read_payloadV_LIST (by omega) ht hi]
      rw [show loopCount 0 = 0 by norm_num [loopCount], readListItemsV_zero]
      simp [Except.map, listChain]
  | succ m ih =>
      intro depth rest h
      rw [show lpBytes (m + 1) ++ rest = 9 :: 0 :: 0 :: 0 :: 1 :: (lpBytes m ++ rest) by
        simp [lpBytes]]
      have ht : read_tag_typeV (9 :: 0 :: 0 :: 0 :: 1 :: (lpBytes m ++ rest)) =
          .ok (.LIST, 0 :: 0 :: 0 :: 1 :: (lpBytes m ++ rest)) := by
        rw [read_tag_typeV_valid _ (by norm_num)]
        rfl
      have hi : read_intV (0 :: 0 :: 0 :: 1 :: (lpBytes m ++ rest)) =
          .ok (1, lpBytes m ++ rest) := by
        rw [read_intV_cons]
        norm_num [castInt32]
      rw [read_payloadV_LIST (by omega) ht hi]
      rw [show loopCount 1 = 1 by norm_num [loopCount], show (1 : Nat) = 0 + 1 from rfl]
      rw [readListItemsV_succ (ih (depth + 1) rest (by omega)), readListItemsV_zero]
      simp [Except.map, listChain]

/-- A nested-Compound payload decodes successfully however deep it is:
compound entries are read at the parent's own depth, so Compound nesting
never advances the depth counter. -/
theorem cpBytes_ok :
    ∀ (n depth : Nat) (rest : Bytes), depth ≤ 1024 →
      read_payloadV .COMPOUND depth (cpBytes n ++ rest) = .ok (compoundChain n, rest) := by
  intro n
  induction n with
  | zero =>
      intro depth rest h
      rw [show cpBytes 0 ++ rest = 0 :: rest by simp [cpBytes]]
      have hn : read_namedV depth (0 :: rest) = .ok ((.TEnd, []), rest) := by
        refine read_namedV_end ?ht
        rw [read_tag_typeV_valid _ (by norm_num)]
        rfl
      rw [read_payloadV_COMPOUND h, readCompoundItemsV_stop hn rfl]
      simp [Except.map, compoundChain]
  | succ m ih =>
      intro depth rest h
      rw [show cpBytes (m + 1) ++ rest = 10 :: 0 :: 0 :: (cpBytes m ++ (0 :: rest)) by
        simp [cpBytes]]
      have ht : read_tag_typeV (10 :: 0 :: 0 :: (cpBytes m ++ (0 :: rest))) =
          .ok (.COMPOUND, 0 :: 0 :: (cpBytes m ++ (0 :: rest))) := by
        rw [read_tag_typeV_valid _ (by norm_num)]
        rfl
      have hn : read_namedV depth (10 :: 0 :: 0 :: (cpBytes m ++ (0 :: rest))) =
          .ok ((compoundChain m, []), 0 :: rest) := by
        rw [read_namedV_step ht (by simp) (read_stringV_empty _), ih depth (0 :: rest) h]
        rfl
      have hstop : readCompoundItemsV depth (0 :: rest) = .ok ([], rest) := by
        refine readCompoundItemsV_stop (read_namedV_end ?ht2) rfl
        rw [read_tag_typeV_valid _ (by norm_num)]
        rfl
      rw [read_payloadV_COMPOUND h,
        readCompoundItemsV_cons hn (by simp [compoundChain_type]), hstop]
      simp [Except.map, compoundChain]

/-- C1: the claimed round-trip `read(write(T)) == T` fails at the
in-memory tree consisting of a single Long tag holding 2^31: the writer
emits its eight bytes exactly, but the reader's `read_long` passes the
assembled 64-bit value through `static_cast<int32_t>` (binary.cpp:170,
io.cpp:176), so the value decodes as −2^31. -/
theorem C1_roundtrip_long_bug :
    write_unnamed_binary (Tag.TLong 2147483648) = .ok [4, 0, 0, 0, 0, 128, 0, 0, 0] ∧
    read_unnamed_binary [4, 0, 0, 0, 0, 128, 0, 0, 0] = .ok (Tag.TLong (-2147483648)) ∧
    Tag.TLong 2147483648 ≠ Tag.TLong (-2147483648) := by
  refine ⟨by decide, ?r, by simp⟩
  rw [read_unnamed_binary_eq, read_tag_typeV_valid _ (by norm_num)]
  show (read_payloadV .LONG 0 [0, 0, 0, 0, 128, 0, 0, 0]).map (fun p => p.1) =
    .ok (Tag.TLong (-2147483648))
  rw [read_payloadV_LONG (by norm_num), read_longV_cons]
  norm_num [Except.map, castInt32, castInt64]

/-- C2: writing the int64 value −2^63 (the bit pattern of Double −0.0)
emits the bytes 80 00 00 00 00 00 00 00, but reading that 8-byte field
back yields 0, not −2^63: `read_long` truncates through
`static_cast<int32_t>`, so Double/Long bit patterns outside the int32
range are not preserved. -/
theorem C2_long_bit_pattern_bug :
    write_long (-9223372036854775808) = [128, 0, 0, 0, 0, 0, 0, 0] ∧
    read_longV [128, 0, 0, 0, 0, 0, 0, 0] = .ok (0, []) ∧
    (0 : Int) ≠ -9223372036854775808 := by
  refine ⟨by decide, ?r, by norm_num⟩
  rw [read_longV_cons]
  norm_num [castInt32, castInt64]

/-- C3 counterexample: a stream of 1026 nested Compound levels (1025
descents below the root payload) decodes successfully instead of failing
with MaxDepthExceeded, because `read_payload`'s Compound case passes
`depth` — not `depth + 1` — to `read_named` for its entries. -/
theorem C3_deep_compound_counterexample :
    read_unnamed_binary (10 :: cpBytes 1025) = .ok (compoundChain 1025) := by
  rw [read_unnamed_binary_eq, read_tag_typeV_valid _ (by norm_num)]
  show (read_payloadV .COMPOUND 0 (cpBytes 1025)).map (fun p => p.1) =
    .ok (compoundChain 1025)
  have hc := cpBytes_ok 1025 0 [] (by norm_num)
  rw [List.append_nil] at hc
  rw [hc]
  rfl

/-- C3 amended: only List descents increment the depth counter (checked
on entry to `read_payload`); Compound entries are decoded at the parent's
depth, so Compound-only nesting never triggers the guard.  Concretely:
a root List over `n` further List descents fails with MaxDepthExceeded
exactly when `n > 1024`, while `n` nested Compounds decode for every `n`. -/
theorem C3_depth_guard_amended (n : Nat) :
    (1024 < n → read_unnamed_binary (9 :: lpBytes n) = .error .maxDepth) ∧
    (n ≤ 1024 → read_unnamed_binary (9 :: lpBytes n) = .ok (listChain n)) ∧
    read_unnamed_binary (10 :: cpBytes n) = .ok (compoundChain n) := by
  refine ⟨?fail, ?ok, ?comp⟩
  case fail =>
    intro h
    rw [read_unnamed_binary_eq, read_tag_typeV_valid _ (by norm_num)]
    show (read_payloadV .LIST 0 (lpBytes n)).map (fun p => p.1) = .error .maxDepth
    have hf := lpBytes_fail n 0 [] (by omega)
    rw [List.append_nil] at hf
    rw [hf]
    rfl
  case ok =>
    intro h
    rw [read_unnamed_binary_eq, read_tag_typeV_valid _ (by norm_num)]
    show (read_payloadV .LIST 0 (lpBytes n)).map (fun p => p.1) = .ok (listChain n)
    have hf := lpBytes_ok n 0 [] (by omega)
    rw [List.append_nil] at hf
    rw [hf]
    rfl
  case comp =>
    rw [read_unnamed_binary_eq, read_tag_typeV_valid _ (by norm_num)]
    show (read_payloadV .COMPOUND 0 (cpBytes n)).map (fun p => p.1) = .ok (compoundChain n)
    have hc := cpBytes_ok n 0 [] (by norm_num)
    rw [List.append_nil] at hc
    rw [hc]
    rfl

/-- C3 witness: at 1025 List descents the reader fails with the depth
error. -/
theorem C3_depth_guard_witness :
    1024 < 1025 ∧ read_unnamed_binary (9 :: lpBytes 1025) = .error .maxDepth :=
  ⟨by norm_num, (C3_depth_guard_amended 1025).1 (by norm_num)⟩

/-- Reading a one-byte name (wire bytes `00 01 b`). -/
theorem read_stringV_one (b : Nat) (s : Bytes) :
    read_stringV (0 :: 1 :: b :: s) = .ok ([b], s) := by
  rw [read_stringV, read_string, read_short_cons]
  norm_num [castInt16, read_bytes, Except.map]

/-- C4: the compound entry loop appends every decoded (name, tag) entry
at the end of the already-read sequence, in stream order, without
inspecting the name — so an entry whose name duplicates an earlier one
is appended rather than overwriting it.  The second conjunct runs the
loop on a stream with two entries both named "a": both survive, in
stream order (io.cpp:115, the spec-designated canonical representation;
the older binary.cpp snapshot instead collapses duplicates into a
key-ordered `QMap`). -/
theorem C4_compound_entries_appended :
    (∀ (depth : Nat) (s r : Bytes) (item : NamedTag),
      read_namedV depth s = .ok (item, r) → item.1.type ≠ .END →
      readCompoundItemsV depth s =
        (readCompoundItemsV depth r).map fun p => (item :: p.1, p.2)) ∧
    readCompoundItemsV 0 [1, 0, 1, 97, 1, 1, 0, 1, 97, 2, 0] =
      .ok ([(Tag.TByte 1, [97]), (Tag.TByte 2, [97])], []) := by
  constructor
  · intro depth s r item hn hne
    exact readCompoundItemsV_cons hn hne
  · have h1 : read_namedV 0 [1, 0, 1, 97, 1, 1, 0, 1, 97, 2, 0] =
        .ok ((Tag.TByte 1, [97]), [1, 0, 1, 97, 2, 0]) := by
      rw [read_namedV_step (read_tag_typeV_valid _ (by norm_num)) (by simp [typeOfId])
        (read_stringV_one 97 _)]
      rw [show typeOfId 1 = .BYTE from rfl, read_payloadV_BYTE (by norm_num),
        read_byteV_cons]
      norm_num [Except.map, castInt8]
    have h2 : read_namedV 0 [1, 0, 1, 97, 2, 0] =
        .ok ((Tag.TByte 2, [97]), [0]) := by
      rw [read_namedV_step (read_tag_typeV_valid _ (by norm_num)) (by simp [typeOfId])
        (read_stringV_one 97 _)]
      rw [show typeOfId 1 = .BYTE from rfl, read_payloadV_BYTE (by norm_num),
        read_byteV_cons]
      norm_num [Except.map, castInt8]
    have hend : read_namedV 0 [0] = .ok ((Tag.TEnd, []), []) := by
      refine read_namedV_end ?_
      rw [read_tag_typeV_valid _ (by norm_num)]
      rfl
    rw [readCompoundItemsV_cons h1 (by simp [Tag.type]),
      readCompoundItemsV_cons h2 (by simp [Tag.type]),
      readCompoundItemsV_stop hend rfl]
    rfl

/-- C4 witness: the first duplicate-name entry of the concrete stream is
appended in front of whatever the rest of the loop produces. -/
theorem C4_compound_entries_witness :
    read_namedV 0 [1, 0, 1, 97, 1, 1, 0, 1, 97, 2, 0] =
      .ok ((Tag.TByte 1, [97]), [1, 0, 1, 97, 2, 0]) ∧
    (Tag.TByte 1, ([97] : Bytes)).1.type ≠ .END ∧
    readCompoundItemsV 0 [1, 0, 1, 97, 1, 1, 0, 1, 97, 2, 0] =
      (readCompoundItemsV 0 [1, 0, 1, 97, 2, 0]).map
        fun p => ((Tag.TByte 1, [97]) :: p.1, p.2) := by
  have h1 : read_namedV 0 [1, 0, 1, 97, 1, 1, 0, 1, 97, 2, 0] =
      .ok ((Tag.TByte 1, [97]), [1, 0, 1, 97, 2, 0]) := by
    rw [read_namedV_step (read_tag_typeV_valid _ (by norm_num)) (by simp [typeOfId])
      (read_stringV_one 97 _)]
    rw [show typeOfId 1 = .BYTE from rfl, read_payloadV_BYTE (by norm_num),
      read_byteV_cons]
    norm_num [Except.map, castInt8]
  exact ⟨h1, by simp [Tag.type],
    C4_compound_entries_appended.1 0 _ _ _ h1 (by simp [Tag.type])⟩

theorem write_string_overlong {s : Bytes} (h : 32767 < s.length) :
    write_string s = .error .stringTooLong := by
  rw [write_string, show numeric_cast_int16 (s.length : Int) = none by
    rw [numeric_cast_int16, if_pos (by omega)]]

theorem write_string_fits {s : Bytes} (h : s.length ≤ 32767) :
    write_string s = .ok (write_short (s.length : Int) ++ s) := by
  rw [write_string, show numeric_cast_int16 (s.length : Int) = some (s.length : Int) by
    rw [numeric_cast_int16, if_neg (by omega), if_neg (by omega)]]

/-- C5 counterexample: a string whose UTF-8 encoding is 65535 bytes — in
range for the unsigned 16-bit wire field — is rejected with
StringTooLong, because `write_string` converts the length with
`numeric_cast<int16_t>`, whose ceiling is 32767. -/
theorem C5_counterexample_65535 :
    write_string (List.replicate 65535 97) = .error .stringTooLong :=
  write_string_overlong (by rw [List.length_replicate]; norm_num)

/-- C5 amended: `write_string` fails with StringTooLong exactly when the
UTF-8 byte length exceeds the signed 16-bit maximum 32767; any string of
at most 32767 bytes is written in full, without truncating or wrapping
the length.  In particular 65535 bytes fails as well as 65536. -/
theorem C5_string_length_amended (s : Bytes) :
    (32767 < s.length → write_string s = .error .stringTooLong) ∧
    (s.length ≤ 32767 → write_string s = .ok (write_short (s.length : Int) ++ s)) :=
  ⟨fun h => write_string_overlong h, fun h => write_string_fits h⟩

/-- C5 witness: 32768 bytes is rejected while 32767 bytes is written with
its exact length prefix. -/
theorem C5_string_length_witness :
    32767 < (List.replicate 32768 97 : Bytes).length ∧
    write_string (List.replicate 32768 97) = .error .stringTooLong ∧
    (List.replicate 32767 97 : Bytes).length ≤ 32767 ∧
    write_string (List.replicate 32767 97) =
      .ok (write_short ((List.replicate 32767 97 : Bytes).length : Int) ++
        List.replicate 32767 97) := by
  refine ⟨by rw [List.length_replicate]; norm_num,
    (C5_string_length_amended _).1 (by rw [List.length_replicate]; norm_num),
    by rw [List.length_replicate],
    (C5_string_length_amended _).2 (by rw [List.length_replicate])⟩

/-- C6 counterexample: a ByteArray payload whose 32-bit count field holds
−1 does not fail with any negative-length error — no such check exists in
`read_payload` — instead the `while (length-- != 0)` loop starts reading
2^32 − 1 elements and hits end-of-stream ("EOF"). -/
theorem C6_negative_length_eof :
    read_unnamed_binary [7, 255, 255, 255, 255] = .error .eof := by
  rw [read_unnamed_binary_eq, read_tag_typeV_valid _ (by norm_num)]
  show (read_payloadV .BYTE_ARRAY 0 [255, 255, 255, 255]).map (fun p => p.1) = .error .eof
  have hi : read_intV [255, 255, 255, 255] = .ok (-1, []) := by
    rw [read_intV_cons]
    norm_num [castInt32]
  rw [read_payloadV_BYTE_ARRAY (by norm_num) hi,
    readByteItemsV_short (show ([] : Bytes).length < loopCount (-1) by norm_num [loopCount])]
  rfl

/-- C6 amended: the reader has no negative-count check.  A ByteArray
count of −1 is treated as the 32-bit countdown 2^32 − 1, so the decode
fails with EOF (not InvalidLength) on any stream shorter than that; a
List of element kind End with count −1 even succeeds (see the C10
theorem). -/
theorem C6_negative_length_amended (rest : Bytes) (h : rest.length < 4294967295) :
    read_unnamed_binary (7 :: 255 :: 255 :: 255 :: 255 :: rest) = .error .eof := by
  rw [read_unnamed_binary_eq, read_tag_typeV_valid _ (by norm_num)]
  show (read_payloadV .BYTE_ARRAY 0 (255 :: 255 :: 255 :: 255 :: rest)).map (fun p => p.1) =
    .error .eof
  have hi : read_intV (255 :: 255 :: 255 :: 255 :: rest) = .ok (-1, rest) := by
    rw [read_intV_cons]
    norm_num [castInt32]
  rw [read_payloadV_BYTE_ARRAY (by norm_num) hi,
    readByteItemsV_short (show rest.length < loopCount (-1) by
      rw [show loopCount (-1) = 4294967295 by unfold loopCount; omega]
      exact h)]
  rfl

/-- C6 witness: a one-byte remainder after the −1 count still ends in
EOF. -/
theorem C6_negative_length_witness :
    ([0] : Bytes).length < 4294967295 ∧
    read_unnamed_binary [7, 255, 255, 255, 255, 0] = .error .eof :=
  ⟨by norm_num, C6_negative_length_amended [0] (by norm_num)⟩

/-- C7 counterexample: a List payload declaring element kind End with
count 1 decodes successfully to a list holding one End tag — there is no
InvalidListType check anywhere in the reader. -/
theorem C7_end_list_accepted :
    read_unnamed_binary [9, 0, 0, 0, 0, 1] = .ok (.TList .END [.TEnd]) := by
  rw [read_unnamed_binary_eq, read_tag_typeV_valid _ (by norm_num)]
  show (read_payloadV .LIST 0 [0, 0, 0, 0, 1]).map (fun p => p.1) =
    .ok (.TList .END [.TEnd])
  have ht : read_tag_typeV [0, 0, 0, 0, 1] = .ok (.END, [0, 0, 0, 1]) := by
    rw [read_tag_typeV_valid _ (by norm_num)]
    rfl
  have hi : read_intV [0, 0, 0, 1] = .ok (1, []) := by
    rw [read_intV_cons]
    norm_num [castInt32]
  rw [read_payloadV_LIST (by norm_num) ht hi,
    show loopCount 1 = 1 by norm_num [loopCount],
    readListItemsV_END (by norm_num) 1 []]
  simp [Except.map, List.replicate]

/-- C7 amended: an End element kind is accepted for every count: with a
non-negative count n the payload decodes to n End tags (each consuming no
input bytes), and count 0 is likewise accepted; no InvalidListType error
exists. -/
theorem C7_end_list_amended (b0 b1 b2 b3 : Nat) (rest : Bytes)
    (h0 : b0 < 128) (h1 : b1 < 256) (h2 : b2 < 256) (h3 : b3 < 256) :
    read_unnamed_binary (9 :: 0 :: b0 :: b1 :: b2 :: b3 :: rest) =
      .ok (.TList .END
        (List.replicate (b0 * 16777216 + b1 * 65536 + b2 * 256 + b3) Tag.TEnd)) := by
  rw [read_unnamed_binary_eq, read_tag_typeV_valid _ (by norm_num)]
  show (read_payloadV .LIST 0 (0 :: b0 :: b1 :: b2 :: b3 :: rest)).map (fun p => p.1) = _
  have ht : read_tag_typeV (0 :: b0 :: b1 :: b2 :: b3 :: rest) =
      .ok (.END, b0 :: b1 :: b2 :: b3 :: rest) := by
    rw [read_tag_typeV_valid _ (by norm_num)]
    rfl
  have hcast : castInt32 ((b0 : Int) * 16777216 + (b1 : Int) * 65536 + (b2 : Int) * 256 +
      (b3 : Int)) = ((b0 * 16777216 + b1 * 65536 + b2 * 256 + b3 : Nat) : Int) := by
    rw [castInt32_of_small (by omega) (by omega)]
    push_cast
    ring
  have hi : read_intV (b0 :: b1 :: b2 :: b3 :: rest) =
      .ok (((b0 * 16777216 + b1 * 65536 + b2 * 256 + b3 : Nat) : Int), rest) := by
    rw [read_intV_cons, hcast]
  rw [read_payloadV_LIST (by norm_num) ht hi]
  rw [show loopCount ((b0 * 16777216 + b1 * 65536 + b2 * 256 + b3 : Nat) : Int) =
      b0 * 16777216 + b1 * 65536 + b2 * 256 + b3 by
    rw [loopCount_of_nonneg (by omega) (by omega)]
    omega]
  rw [readListItemsV_END (by norm_num) _ rest]
  rfl

/-- C7 witness: element kind End with count 5 yields five End tags. -/
theorem C7_end_list_witness :
    read_unnamed_binary [9, 0, 0, 0, 0, 5] = .ok (.TList .END (List.replicate 5 Tag.TEnd)) := by
  have h := C7_end_list_amended 0 0 0 5 [] (by norm_num) (by norm_num) (by norm_num)
    (by norm_num)
  simpa using h

/-- C8: wherever a tag-kind byte is expected it is read through
`read_tag_type`: every byte value in [0, 12] is accepted as the
corresponding kind, and every byte value in [13, 255] fails with
"Invalid tag ID" carrying that byte (as its signed int8 reading, whose
low 8 bits identify the byte). -/
theorem C8_tag_kind_byte (b : Nat) (s : Bytes) (hb : b < 256) :
    (b ≤ 12 → read_tag_typeV (b :: s) = .ok (typeOfId b, s)) ∧
    (12 < b → read_tag_typeV (b :: s) = .error (.invalidTagId (castInt8 b)) ∧
      (castInt8 b) % 256 = b) := by
  constructor
  · intro h
    exact read_tag_typeV_valid s h
  · intro h
    refine ⟨read_tag_typeV_invalid s h hb, ?_⟩
    unfold castInt8
    split <;> omega

/-- C8 witness: byte 255 is rejected with "Invalid tag ID: −1", and −1
mod 256 recovers the byte 255. -/
theorem C8_tag_kind_byte_witness :
    (255 : Nat) < 256 ∧ 12 < 255 ∧
    read_tag_typeV [255] = .error (.invalidTagId (-1)) ∧ ((-1 : Int)) % 256 = 255 := by
  have h := (C8_tag_kind_byte 255 [] (by norm_num)).2 (by norm_num)
  have hc : castInt8 ((255 : Nat) : Int) = -1 := by norm_num [castInt8]
  rw [hc] at h
  exact ⟨by norm_num, by norm_num, h.1, h.2⟩

/-- C9: encoding the named root Compound "root" containing Int "x" = 42
and then String "y" = "hi" produces exactly the 24 bytes
0A 00 04 72 6F 6F 74 03 00 01 78 00 00 00 2A 08 00 01 79 00 02 68 69 00. -/
theorem C9_scenario_a :
    write_named_binary (Tag.TCompound [(Tag.TInt 42, [120]), (Tag.TString [104, 105], [121])],
      [114, 111, 111, 116]) =
    .ok [10, 0, 4, 114, 111, 111, 116, 3, 0, 1, 120, 0, 0, 0, 42,
         8, 0, 1, 121, 0, 2, 104, 105, 0] := by
  decide

/-- C10: the reader is a total function of the input bytes — every finite
stream yields either a root tag or an error.  The further conjuncts show
the List loop's behaviour at its worst cases: element kind End consumes
no bytes per element yet the loop runs to completion for every count, and
a negative count field (−1) runs the 32-bit countdown to completion,
returning 2^32 − 1 End tags rather than diverging. -/
theorem C10_read_terminates :
    (∀ s : Bytes, (∃ t, read_unnamed_binary s = .ok t) ∨
      (∃ e, read_unnamed_binary s = .error e)) ∧
    (∀ (n : Nat) (s : Bytes),
      readListItemsV .END 0 n s = .ok (List.replicate n Tag.TEnd, s)) ∧
    read_unnamed_binary [9, 0, 255, 255, 255, 255] =
      .ok (.TList .END (List.replicate 4294967295 Tag.TEnd)) := by
  refine ⟨?total, ?loop, ?bomb⟩
  case total =>
    intro s
    cases h : read_unnamed_binary s with
    | ok t => exact Or.inl ⟨t, rfl⟩
    | error e => exact Or.inr ⟨e, rfl⟩
  case loop =>
    intro n s
    exact readListItemsV_END (by norm_num) n s
  case bomb =>
    rw [read_unnamed_binary_eq, read_tag_typeV_valid _ (by norm_num)]
    show (read_payloadV .LIST 0 [0, 255, 255, 255, 255]).map (fun p => p.1) =
      .ok (.TList .END (List.replicate 4294967295 Tag.TEnd))
    have ht : read_tag_typeV [0, 255, 255, 255, 255] = .ok (.END, [255, 255, 255, 255]) := by
      rw [read_tag_typeV_valid _ (by norm_num)]
      rfl
    have hi : read_intV [255, 255, 255, 255] = .ok (-1, []) := by
      rw [read_intV_cons]
      norm_num [castInt32]
    rw [read_payloadV_LIST (by norm_num) ht hi,
      show loopCount (-1) = 4294967295 by unfold loopCount; omega,
      readListItemsV_END (by norm_num) _ []]
    rfl
